import Mathlib

/-!
Verification development for the ACL Rehab Tracker telemetry client
(frontend/src/App.jsx, components/MuscleActivationBar.jsx) together with a
spec-modelled view of the backend session store it talks to.

Numeric values (voltages, angles, percentages) are modelled over the
rationals; JavaScript optional fields become Option, and absent-vs-null
distinctions are modelled explicitly where the code tests them.
-/

/-- Pitch/roll pair of one limb segment, as kept in the smoothImu state. -/
structure SegmentAngles where
  pitch : ℚ
  roll : ℚ
deriving DecidableEq

/-- The two-segment IMU record createNeutralImu()-shaped: thigh and shin. -/
structure ImuPair where
  thigh : SegmentAngles
  shin : SegmentAngles
deriving DecidableEq

/-- createNeutralImu from App.jsx: both segments at pitch 0, roll 0. -/
def createNeutralImu : ImuPair :=
  { thigh := { pitch := 0, roll := 0 }, shin := { pitch := 0, roll := 0 } }

/-- One segment of an incoming imu payload; pitch or roll may be null/absent
(the code null-coalesces each field separately). -/
structure SegmentPayload where
  pitch : Option ℚ
  roll : Option ℚ
deriving DecidableEq

/-- Incoming imu payload of a websocket message; a segment that is absent
from the payload is none (the code tests truthiness of imuPayload?.[segment]). -/
structure ImuPayload where
  thigh : Option SegmentPayload
  shin : Option SegmentPayload
deriving DecidableEq

/-- One Metrics snapshot as received over the websocket. Fields the UI reads
with optional chaining are Options; hasMuscleRangeField models the
hasOwnProperty check on muscle_rest_voltage in ws.onmessage. -/
structure Metrics where
  flexion_angle : Option ℚ := none
  extension_angle : Option ℚ := none
  muscle_voltage : Option ℚ := none
  muscle_relative : Option ℚ := none
  torque : Option ℚ := none
  max_flexion : Option ℚ := none
  max_extension : Option ℚ := none
  max_torque : Option ℚ := none
  imu : Option ImuPayload := none
  raw_imu : Option ImuPayload := none
  hasMuscleRangeField : Bool := false
  muscle_rest_voltage : Option ℚ := none
  muscle_peak_voltage : Option ℚ := none
  timestamp : ℚ := 0
deriving DecidableEq

/-- The muscleRange React state: { rest: null, peak: null } initially. -/
structure MuscleRange where
  rest : Option ℚ
  peak : Option ℚ
deriving DecidableEq

/-- The calibrationStep React state: "ready" -> "rest" -> "peak" -> "done"
(the spec names these ready, awaiting_rest, awaiting_peak, done). -/
inductive CalStep where
  | ready
  | rest
  | peak
  | done
deriving DecidableEq

/-- maxHistoryLength from App.jsx line 29. -/
def maxHistoryLength : Nat := 100

/-- smoothingAlpha from App.jsx line 30 (0.8). -/
def smoothingAlpha : ℚ := 4 / 5

/-- The reconnect delay passed to setTimeout in ws.onclose (3000 ms). -/
def reconnectDelayMs : Nat := 3000

/-- The client-side React state of App.jsx that the claims are about.
pendingReconnectDelayMs models the setTimeout(connectWebSocket, 3000)
scheduled by ws.onclose; modalOpen models modalState.open. -/
structure ClientState where
  data : Option Metrics
  history : List Metrics
  smoothImu : ImuPair
  muscleRange : MuscleRange
  calibrationStep : CalStep
  modalOpen : Bool
  isConnected : Bool
  pendingReconnectDelayMs : Option Nat
deriving DecidableEq

/-- The per-segment body of the forEach in ws.onmessage setSmoothImu:
missing segment keeps the previous estimate; otherwise each of pitch and
roll null-coalesces to the previous value and is blended with
smoothingAlpha. -/
def updateSegment (prevSegment : SegmentAngles) (incoming : Option SegmentPayload) :
    SegmentAngles :=
  match incoming with
  | none => prevSegment
  | some inc =>
    let newPitch := inc.pitch.getD prevSegment.pitch
    let newRoll := inc.roll.getD prevSegment.roll
    { pitch := smoothingAlpha * prevSegment.pitch + (1 - smoothingAlpha) * newPitch,
      roll := smoothingAlpha * prevSegment.roll + (1 - smoothingAlpha) * newRoll }

/-- setSmoothImu updater in ws.onmessage: both segments updated
independently by updateSegment. -/
def setSmoothImu (prev : ImuPair) (payload : ImuPayload) : ImuPair :=
  { thigh := updateSegment prev.thigh payload.thigh,
    shin := updateSegment prev.shin payload.shin }

/-- setHistory updater in ws.onmessage: append the new snapshot and keep
the last maxHistoryLength entries (updated.slice(-maxHistoryLength)). -/
def pushHistory (prev : List Metrics) (newData : Metrics) : List Metrics :=
  let updated := prev ++ [newData]
  updated.drop (updated.length - maxHistoryLength)

/-- ws.onmessage: store the snapshot, mirror the muscle range when the
message carries the muscle_rest_voltage field, smooth the imu payload
(falling back to raw_imu, then to an empty payload), and push the snapshot
onto the bounded history. -/
def onMessage (c : ClientState) (newData : Metrics) : ClientState :=
  let c1 := { c with data := some newData }
  let c2 :=
    if newData.hasMuscleRangeField then
      { c1 with muscleRange :=
          { rest := newData.muscle_rest_voltage, peak := newData.muscle_peak_voltage } }
    else c1
  let imuPayload := (newData.imu.orElse (fun _ => newData.raw_imu)).getD
    { thigh := none, shin := none }
  { c2 with
      smoothImu := setSmoothImu c2.smoothImu imuPayload,
      history := pushHistory c2.history newData }

/-- Websocket events dispatched to the handlers installed by
connectWebSocket. -/
inductive WsEvent where
  | opened
  | message (m : Metrics)
  | errored
  | closed
deriving DecidableEq

/-- The handler set installed by connectWebSocket on every socket it
creates: onopen sets connected, onmessage is onMessage, onerror clears
connected, onclose clears connected and schedules a reconnect after
reconnectDelayMs. -/
def handleWsEvent (c : ClientState) (e : WsEvent) : ClientState :=
  match e with
  | .opened => { c with isConnected := true }
  | .message m => onMessage c m
  | .errored => { c with isConnected := false }
  | .closed =>
    { c with isConnected := false, pendingReconnectDelayMs := some reconnectDelayMs }

/-- The scheduled setTimeout firing: connectWebSocket runs, creating a new
socket wired to the same handler set (handleWsEvent). -/
def fireReconnect (c : ClientState) : ClientState :=
  { c with pendingReconnectDelayMs := none }

/-- MuscleActivationBar barHeight: Math.min(100, Math.max(0, displayValue)). -/
def barHeight (displayValue : ℚ) : ℚ :=
  min 100 (max 0 displayValue)

/-- currentRelative in App.jsx: data?.muscle_relative ?? 0. -/
def currentRelative (data : Option Metrics) : ℚ :=
  (data.bind Metrics.muscle_relative).getD 0

/-- relativePeak memo in App.jsx: 0 for an empty history, otherwise
Math.max over muscle_relative (?? 0) of every retained snapshot. -/
def relativePeak (history : List Metrics) : ℚ :=
  match history.map (fun entry => entry.muscle_relative.getD 0) with
  | [] => 0
  | x :: xs => xs.foldl max x

/-- The backend MuscleCalibration record: rest and peak voltages, both
absent until captured. -/
structure MuscleCalibration where
  rest_voltage : Option ℚ
  peak_voltage : Option ℚ
deriving DecidableEq

/-- Errors of the muscle calibration control surface. -/
inductive CalibrationError where
  | CalibrationOrderError
deriving DecidableEq

/-- The mode query parameter of POST /muscle/calibrate. -/
inductive CalMode where
  | rest
  | max
deriving DecidableEq

/-- Modelled from the spec: the backend muscle calibration step
(backend/sensors/myoware.py and its main.py endpoint are not under src/).
Capturing rest stores the instantaneous voltage; capturing max requires
rest to have been captured already, else it fails with
CalibrationOrderError leaving the record unchanged. -/
def calibrateMuscle (cal : MuscleCalibration) (mode : CalMode) (currentVoltage : ℚ) :
    Except CalibrationError MuscleCalibration :=
  match mode with
  | .rest => .ok { cal with rest_voltage := some currentVoltage }
  | .max =>
    match cal.rest_voltage with
    | none => .error .CalibrationOrderError
    | some _ => .ok { cal with peak_voltage := some currentVoltage }

/-- Modelled from the spec: the backend relative-activation computation
(backend/sensors/myoware.py is not under src/): 100 times
(voltage - rest) over (peak - rest), clamped to the interval from 0 to
100, and 0 whenever either calibration value is still absent. -/
def relative_activation (cal : MuscleCalibration) (voltage : ℚ) : ℚ :=
  match cal.rest_voltage, cal.peak_voltage with
  | some rest, some peak =>
    min 100 (max 0 (100 * (voltage - rest) / (peak - rest)))
  | _, _ => 0

/-- Modelled from the spec: the backend Session State Store
(backend/main.py is not under src/): muscle calibration, the IMU zero
pose, the running maxima, and the bounded session history. -/
structure BackendState where
  muscleCal : MuscleCalibration
  imuZeroPose : ImuPair
  max_flexion : ℚ
  max_extension : ℚ
  max_torque : ℚ
  sessionHistory : List Metrics
deriving DecidableEq

/-- Modelled from the spec: POST /reset on the backend clears the history
and running maxima and does not alter calibration. -/
def backendReset (b : BackendState) : BackendState :=
  { b with sessionHistory := [], max_flexion := 0, max_extension := 0, max_torque := 0 }

/-- Modelled from the spec: POST /imu/calibrate zeroes the orientation
reference on the backend. -/
def backendCalibrateImu (b : BackendState) : BackendState :=
  { b with imuZeroPose := createNeutralImu }

/-- Client and spec-modelled backend together. -/
structure SystemState where
  client : ClientState
  backend : BackendState
deriving DecidableEq

/-- resetSession in App.jsx (success path): POST /reset to the backend,
then setHistory([]), setMuscleRange({rest: null, peak: null}),
setCalibrationStep("ready") on the client. -/
def sysResetSession (sys : SystemState) : SystemState :=
  { client := { sys.client with
      history := [],
      muscleRange := { rest := none, peak := none },
      calibrationStep := .ready },
    backend := backendReset sys.backend }

/-- calibrateImu in App.jsx: POST /imu/calibrate, then reset the smoothed
display to the neutral pose. -/
def sysCalibrateImu (sys : SystemState) : SystemState :=
  { client := { sys.client with smoothImu := createNeutralImu },
    backend := backendCalibrateImu sys.backend }

/-- The setMuscleRange call in calibrateMuscleStep: each side of the
range takes the returned value when present, otherwise keeps the
currently displayed one (result.rest_voltage ?? muscleRange.rest). -/
def applyMuscleResult (c : ClientState) (result : MuscleCalibration) : ClientState :=
  { c with muscleRange :=
      { rest := result.rest_voltage.orElse (fun _ => c.muscleRange.rest),
        peak := result.peak_voltage.orElse (fun _ => c.muscleRange.peak) } }

/-- openUnifiedModal in App.jsx: open the unified modal and enter the
rest-capture step, from any current step (the button reads Recalibrate
when the step is done, Initialize Sensors otherwise). -/
def openUnifiedModal (c : ClientState) : ClientState :=
  { c with modalOpen := true, calibrationStep := .rest }

/-- closeModal in App.jsx. -/
def closeModal (c : ClientState) : ClientState :=
  { c with modalOpen := false }

/-- handleModalConfirm in App.jsx, driving the backend calibration with the
instantaneous voltage at the moment of the call. In the rest step it
captures the rest voltage, calibrates the IMU and advances to the peak
step; in the peak step it captures the max voltage, advances to done and
closes the modal. A backend failure is caught and leaves the state as it
was (the transient isCalibrating flag is set and cleared within the call
and is not modelled). -/
def sysHandleModalConfirm (sys : SystemState) (currentVoltage : ℚ) : SystemState :=
  match sys.client.calibrationStep with
  | .rest =>
    match calibrateMuscle sys.backend.muscleCal .rest currentVoltage with
    | .error _ => sys
    | .ok newCal =>
      let sys1 : SystemState :=
        { client := applyMuscleResult sys.client newCal,
          backend := { sys.backend with muscleCal := newCal } }
      let sys2 := sysCalibrateImu sys1
      { sys2 with client := { sys2.client with calibrationStep := .peak } }
  | .peak =>
    match calibrateMuscle sys.backend.muscleCal .max currentVoltage with
    | .error _ => sys
    | .ok newCal =>
      { client := closeModal
          { (applyMuscleResult sys.client newCal) with calibrationStep := .done },
        backend := { sys.backend with muscleCal := newCal } }
  | _ => sys

/-- A neutral client state, as produced by the useState initialisers. -/
def c0 : ClientState :=
  { data := none, history := [], smoothImu := createNeutralImu,
    muscleRange := { rest := none, peak := none }, calibrationStep := .ready,
    modalOpen := false, isConnected := false, pendingReconnectDelayMs := none }

/-- A neutral backend state: nothing calibrated, maxima at zero. -/
def backend0 : BackendState :=
  { muscleCal := { rest_voltage := none, peak_voltage := none },
    imuZeroPose := createNeutralImu, max_flexion := 0, max_extension := 0,
    max_torque := 0, sessionHistory := [] }

/-- A fully calibrated system sitting in the done step. -/
def sysDone : SystemState :=
  { client := { c0 with
      muscleRange := { rest := some 1, peak := some 3 }, calibrationStep := .done },
    backend := { backend0 with
      muscleCal := { rest_voltage := some 1, peak_voltage := some 3 } } }

/-- A system in the rest-capture step with the unified modal open. -/
def sysRest1 : SystemState :=
  { client := { c0 with calibrationStep := .rest, modalOpen := true },
    backend := backend0 }

/-- A system in the peak-capture step whose rest voltage is captured. -/
def sysPeak1 : SystemState :=
  { client := { c0 with
      calibrationStep := .peak
      modalOpen := true
      muscleRange := { rest := some 2, peak := none } },
    backend := { backend0 with
      muscleCal := { rest_voltage := some 2, peak_voltage := none } } }

/-- A system in the peak-capture step whose rest voltage was never captured. -/
def sysPeakNoRest : SystemState :=
  { client := { c0 with calibrationStep := .peak, modalOpen := true },
    backend := backend0 }

/-- A Metrics snapshot with every field at its default. -/
def m0 : Metrics := {}

/-- A snapshot whose muscle_relative is 30. -/
def mRel30 : Metrics := { muscle_relative := some 30 }

/-- A snapshot whose muscle_relative is 70. -/
def mRel70 : Metrics := { muscle_relative := some 70 }

/-- C1 counterexample input: the reset operation on a calibrated, done
session changes both the displayed calibration step and the displayed
muscle range, so they are not the same after reset as before it. -/
theorem resetSession_changes_calibration_display :
    (sysResetSession sysDone).client.calibrationStep ≠ sysDone.client.calibrationStep ∧
    (sysResetSession sysDone).client.muscleRange ≠ sysDone.client.muscleRange := by
  exact ⟨by decide, by decide⟩

/-- C1 (amended): reset clears the client history, the backend history and
the running maxima, and leaves the backend calibration record and IMU zero
pose unchanged; but on the client it also clears the displayed muscle
range and sets the calibration step back to ready, while the latest
snapshot and the smoothed IMU display are untouched. -/
theorem resetSession_frame_effect (sys : SystemState) :
    (sysResetSession sys).client.history = [] ∧
    (sysResetSession sys).backend.sessionHistory = [] ∧
    (sysResetSession sys).backend.max_flexion = 0 ∧
    (sysResetSession sys).backend.max_extension = 0 ∧
    (sysResetSession sys).backend.max_torque = 0 ∧
    (sysResetSession sys).backend.muscleCal = sys.backend.muscleCal ∧
    (sysResetSession sys).backend.imuZeroPose = sys.backend.imuZeroPose ∧
    (sysResetSession sys).client.muscleRange = { rest := none, peak := none } ∧
    (sysResetSession sys).client.calibrationStep = CalStep.ready ∧
    (sysResetSession sys).client.data = sys.client.data ∧
    (sysResetSession sys).client.smoothImu = sys.client.smoothImu :=
  ⟨rfl, rfl, rfl, rfl, rfl, rfl, rfl, rfl, rfl, rfl, rfl⟩

/-- C9: reset-session is idempotent: applying it twice yields exactly the
state of applying it once, and that state has an empty history (client
and backend) and zeroed running maxima. -/
theorem resetSession_idempotent (sys : SystemState) :
    sysResetSession (sysResetSession sys) = sysResetSession sys ∧
    (sysResetSession sys).client.history = [] ∧
    (sysResetSession sys).backend.sessionHistory = [] ∧
    (sysResetSession sys).backend.max_flexion = 0 ∧
    (sysResetSession sys).backend.max_extension = 0 ∧
    (sysResetSession sys).backend.max_torque = 0 :=
  ⟨rfl, rfl, rfl, rfl, rfl, rfl⟩

/-- C6: for every segment and incoming pitch/roll reading, the updated
filtered estimate is smoothingAlpha times the previous value plus one
minus smoothingAlpha times the incoming value, applied to pitch and roll
independently and to each segment independently, and smoothingAlpha is a
constant lying in the interval from 0.8 to 0.98. -/
theorem smoothing_update_formula :
    (∀ (prevSegment : SegmentAngles) (p r : ℚ),
      updateSegment prevSegment (some { pitch := some p, roll := some r }) =
        { pitch := smoothingAlpha * prevSegment.pitch + (1 - smoothingAlpha) * p,
          roll := smoothingAlpha * prevSegment.roll + (1 - smoothingAlpha) * r }) ∧
    (∀ (prev : ImuPair) (payload : ImuPayload),
      (setSmoothImu prev payload).thigh = updateSegment prev.thigh payload.thigh ∧
      (setSmoothImu prev payload).shin = updateSegment prev.shin payload.shin) ∧
    (8 / 10 : ℚ) ≤ smoothingAlpha ∧ smoothingAlpha ≤ 98 / 100 := by
  refine ⟨fun prevSegment p r => rfl, fun prev payload => ⟨rfl, rfl⟩, ?_, ?_⟩
  · norm_num [smoothingAlpha]
  · norm_num [smoothingAlpha]

/-- C5: on every tick whose payload carries no sample for a segment, that
segment of the smoothed estimate is carried forward unchanged, including
across 3 consecutive such ticks, while the other segment is updated
normally by the same tick. -/
theorem stale_segment_carried_forward (prev : ImuPair) (p1 p2 p3 : ImuPayload)
    (h1 : p1.thigh = none) (h2 : p2.thigh = none) (h3 : p3.thigh = none) :
    (setSmoothImu prev p1).thigh = prev.thigh ∧
    (setSmoothImu (setSmoothImu prev p1) p2).thigh = prev.thigh ∧
    (setSmoothImu (setSmoothImu (setSmoothImu prev p1) p2) p3).thigh = prev.thigh ∧
    (setSmoothImu prev p1).shin = updateSegment prev.shin p1.shin ∧
    (setSmoothImu (setSmoothImu prev p1) p2).shin =
      updateSegment (updateSegment prev.shin p1.shin) p2.shin ∧
    (∀ q : ImuPayload, q.shin = none →
      (setSmoothImu prev q).shin = prev.shin ∧
      (setSmoothImu prev q).thigh = updateSegment prev.thigh q.thigh) := by
  refine ⟨?_, ?_, ?_, rfl, rfl, ?_⟩
  · simp [setSmoothImu, h1, updateSegment]
  · simp [setSmoothImu, h1, h2, updateSegment]
  · simp [setSmoothImu, h1, h2, h3, updateSegment]
  · intro q hq
    exact ⟨by simp [setSmoothImu, hq, updateSegment], rfl⟩

/-- C5 witness: three concrete thigh-less payloads leave the thigh estimate
at its previous value while the shin keeps updating. -/
theorem stale_segment_carried_forward_witness :
    (⟨none, some ⟨some 10, some 20⟩⟩ : ImuPayload).thigh = none ∧
    (setSmoothImu (setSmoothImu (setSmoothImu createNeutralImu
        ⟨none, some ⟨some 10, some 20⟩⟩) ⟨none, some ⟨some 10, some 20⟩⟩)
        ⟨none, some ⟨some 10, some 20⟩⟩).thigh = createNeutralImu.thigh :=
  ⟨rfl, (stale_segment_carried_forward createNeutralImu
      ⟨none, some ⟨some 10, some 20⟩⟩ ⟨none, some ⟨some 10, some 20⟩⟩
      ⟨none, some ⟨some 10, some 20⟩⟩ rfl rfl rfl).2.2.1⟩

/-- C8: after every close event, regardless of how many events preceded it,
the installed onclose handler schedules a reconnect after the fixed delay
of 3000 milliseconds, and a fired reconnect installs the same handler set,
so the next close schedules another retry: the client never gives up. -/
theorem reconnect_after_every_close (evs : List WsEvent) (c : ClientState) :
    ((evs ++ [WsEvent.closed]).foldl handleWsEvent c).pendingReconnectDelayMs =
      some reconnectDelayMs ∧
    reconnectDelayMs = 3000 ∧
    (handleWsEvent (fireReconnect c) WsEvent.closed).pendingReconnectDelayMs =
      some reconnectDelayMs := by
  rw [List.foldl_append]
  exact ⟨rfl, rfl, rfl⟩

/-- C3: the calibration state machine: openUnifiedModal (the start
calibration button, labelled Recalibrate when done) enters the
rest-capture step from any step; confirming in the rest step captures the
rest voltage on the backend, mirrors it in the displayed range, zeroes the
IMU (backend zero pose and smoothed display) and advances to the peak
step; confirming in the peak step captures the peak voltage and advances
to done. -/
theorem calibration_state_machine (sys : SystemState) (v r : ℚ) :
    (∀ c : ClientState, (openUnifiedModal c).calibrationStep = CalStep.rest) ∧
    (sys.client.calibrationStep = CalStep.rest →
      (sysHandleModalConfirm sys v).backend.muscleCal.rest_voltage = some v ∧
      (sysHandleModalConfirm sys v).client.muscleRange.rest = some v ∧
      (sysHandleModalConfirm sys v).client.smoothImu = createNeutralImu ∧
      (sysHandleModalConfirm sys v).backend.imuZeroPose = createNeutralImu ∧
      (sysHandleModalConfirm sys v).client.calibrationStep = CalStep.peak) ∧
    (sys.client.calibrationStep = CalStep.peak →
      sys.backend.muscleCal.rest_voltage = some r →
      (sysHandleModalConfirm sys v).backend.muscleCal.peak_voltage = some v ∧
      (sysHandleModalConfirm sys v).client.muscleRange.peak = some v ∧
      (sysHandleModalConfirm sys v).client.calibrationStep = CalStep.done) := by
  refine ⟨fun c => rfl, fun hstep => ?_, fun hstep hrest => ?_⟩
  · simp only [sysHandleModalConfirm, hstep, calibrateMuscle, applyMuscleResult,
      sysCalibrateImu, backendCalibrateImu]
    refine ⟨?_, ?_, ?_, ?_, ?_⟩ <;> trivial
  · simp only [sysHandleModalConfirm, hstep, calibrateMuscle, hrest,
      applyMuscleResult, closeModal]
    refine ⟨?_, ?_, ?_⟩ <;> trivial

/-- C3 witness: in a concrete rest-step system, confirming with voltage 2
advances to the peak step and stores rest voltage 2; in a concrete
peak-step system with rest captured, confirming with voltage 3 advances
to done and stores peak voltage 3. -/
theorem calibration_state_machine_witness :
    (sysHandleModalConfirm sysRest1 2).client.calibrationStep = CalStep.peak ∧
    (sysHandleModalConfirm sysRest1 2).backend.muscleCal.rest_voltage = some 2 ∧
    (sysHandleModalConfirm sysPeak1 3).client.calibrationStep = CalStep.done ∧
    (sysHandleModalConfirm sysPeak1 3).backend.muscleCal.peak_voltage = some 3 :=
  ⟨((calibration_state_machine sysRest1 2 0).2.1 rfl).2.2.2.2,
   ((calibration_state_machine sysRest1 2 0).2.1 rfl).1,
   ((calibration_state_machine sysPeak1 3 2).2.2 rfl rfl).2.2,
   ((calibration_state_machine sysPeak1 3 2).2.2 rfl rfl).1⟩

/-- C7: when the rest voltage has not been captured, a max-mode
calibration request fails with CalibrationOrderError, and the confirm
handler in the peak step then leaves the whole system state - the backend
MuscleCalibration record, the displayed muscle range and the calibration
step - exactly unchanged. -/
theorem calibrate_max_before_rest_fails (sys : SystemState) (v : ℚ)
    (hrest : sys.backend.muscleCal.rest_voltage = none) :
    calibrateMuscle sys.backend.muscleCal CalMode.max v =
      Except.error CalibrationError.CalibrationOrderError ∧
    (sys.client.calibrationStep = CalStep.peak → sysHandleModalConfirm sys v = sys) := by
  constructor
  · simp [calibrateMuscle, hrest]
  · intro hstep
    simp only [sysHandleModalConfirm, hstep, calibrateMuscle, hrest]

/-- C7 witness: in a concrete peak-step system that never captured rest,
the confirm handler leaves the state unchanged. -/
theorem calibrate_max_before_rest_fails_witness :
    sysPeakNoRest.backend.muscleCal.rest_voltage = none ∧
    sysPeakNoRest.client.calibrationStep = CalStep.peak ∧
    sysHandleModalConfirm sysPeakNoRest 2 = sysPeakNoRest :=
  ⟨rfl, rfl, (calibrate_max_before_rest_fails sysPeakNoRest 2 rfl).2 rfl⟩

/-- C4: with both voltages captured and peak above rest, relative
activation is 100 times the voltage offset over the calibrated span,
clamped to the interval from 0 to 100; with calibration incomplete it is
0 rather than an error; the scenario rest 1 V, peak 3 V, sample 2 V gives
exactly 50 percent; and the frontend bar clamp maps every such output to
itself. -/
theorem relative_activation_spec :
    (∀ rest peak v : ℚ, rest < peak →
      relative_activation { rest_voltage := some rest, peak_voltage := some peak } v =
        min 100 (max 0 (100 * (v - rest) / (peak - rest)))) ∧
    (∀ (cal : MuscleCalibration) (v : ℚ),
      cal.rest_voltage = none ∨ cal.peak_voltage = none →
      relative_activation cal v = 0) ∧
    relative_activation { rest_voltage := some 1, peak_voltage := some 3 } 2 = 50 ∧
    (∀ (cal : MuscleCalibration) (v : ℚ),
      barHeight (relative_activation cal v) = relative_activation cal v) := by
  refine ⟨fun rest peak v _ => rfl, ?_, ?_, ?_⟩
  · intro cal v h
    rcases hr : cal.rest_voltage with _ | rv
    · simp [relative_activation, hr]
    · rcases hp : cal.peak_voltage with _ | pv
      · simp [relative_activation, hr, hp]
      · exfalso
        rcases h with h | h
        · rw [hr] at h; exact Option.noConfusion h
        · rw [hp] at h; exact Option.noConfusion h
  · norm_num [relative_activation]
  · intro cal v
    rcases hr : cal.rest_voltage with _ | rv
    · simp [relative_activation, hr, barHeight]
    · rcases hp : cal.peak_voltage with _ | pv
      · simp [relative_activation, hr, hp, barHeight]
      · simp only [relative_activation, hr, hp, barHeight]
        have h0 : (0:ℚ) ≤ min 100 (max 0 (100 * (v - rv) / (pv - rv))) :=
          le_min (by norm_num) (le_max_left 0 _)
        have h100 : min (100:ℚ) (max 0 (100 * (v - rv) / (pv - rv))) ≤ 100 :=
          min_le_left _ _
        rw [max_eq_right h0, min_eq_right h100]

/-- C4 witness: the formula instantiated at the calibrated pair rest 1 V,
peak 3 V and sample 2 V. -/
theorem relative_activation_spec_witness :
    (1:ℚ) < 3 ∧
    relative_activation { rest_voltage := some (1:ℚ), peak_voltage := some 3 } 2 =
      min 100 (max 0 (100 * ((2:ℚ) - 1) / (3 - 1))) :=
  ⟨by decide, relative_activation_spec.1 1 3 2 (by decide)⟩

lemma le_foldl_max (xs : List ℚ) (a : ℚ) : a ≤ xs.foldl max a := by
  induction xs generalizing a with
  | nil => exact le_refl a
  | cons x xs ih => exact le_trans (le_max_left a x) (ih (max a x))

lemma mem_le_foldl_max (xs : List ℚ) (a b : ℚ) (hb : b ∈ xs) : b ≤ xs.foldl max a := by
  induction xs generalizing a with
  | nil => cases hb
  | cons x xs ih =>
    rcases List.mem_cons.mp hb with h | h
    · subst h
      exact le_trans (le_max_right a b) (le_foldl_max xs (max a b))
    · exact ih (max a x) h

lemma foldl_max_eq_or_mem (xs : List ℚ) (a : ℚ) :
    xs.foldl max a = a ∨ xs.foldl max a ∈ xs := by
  induction xs generalizing a with
  | nil => exact Or.inl rfl
  | cons x xs ih =>
    rcases ih (max a x) with h | h
    · rcases max_choice a x with hm | hm
      · exact Or.inl (by rw [List.foldl_cons, h, hm])
      · exact Or.inr (by rw [List.foldl_cons, h, hm]; exact List.mem_cons_self x xs)
    · exact Or.inr (List.mem_cons_of_mem x h)

/-- C10: the displayed relative peak is 0 on an empty history, and on any
history it is the maximum of muscle_relative (missing treated as 0) over
exactly the snapshots currently retained: it bounds every retained
snapshot and is attained by one of them. -/
theorem relativePeak_is_max_of_window :
    relativePeak [] = 0 ∧
    (∀ (h : List Metrics) (m : Metrics), m ∈ h →
      m.muscle_relative.getD 0 ≤ relativePeak h) ∧
    (∀ h : List Metrics, h ≠ [] →
      ∃ m ∈ h, relativePeak h = m.muscle_relative.getD 0) := by
  refine ⟨rfl, ?_, ?_⟩
  · intro h m hm
    match h with
    | [] => cases hm
    | m0 :: rest =>
      show m.muscle_relative.getD 0 ≤
        (rest.map fun entry => entry.muscle_relative.getD 0).foldl max
          (m0.muscle_relative.getD 0)
      rcases List.mem_cons.mp hm with h' | h'
      · subst h'
        exact le_foldl_max _ _
      · exact mem_le_foldl_max _ _ _ (List.mem_map_of_mem _ h')
  · intro h hne
    match h with
    | [] => exact absurd rfl hne
    | m0 :: rest =>
      have hpk : relativePeak (m0 :: rest) =
          (rest.map fun entry => entry.muscle_relative.getD 0).foldl max
            (m0.muscle_relative.getD 0) := rfl
      rcases foldl_max_eq_or_mem (rest.map fun entry => entry.muscle_relative.getD 0)
          (m0.muscle_relative.getD 0) with h' | h'
      · exact ⟨m0, List.mem_cons_self m0 rest, by rw [hpk, h']⟩
      · rcases List.mem_map.mp h' with ⟨m, hm, hmv⟩
        exact ⟨m, List.mem_cons_of_mem m0 hm, by rw [hpk, ← hmv]⟩

/-- C10 witness: on the concrete two-snapshot history with relative values
30 and 70, the displayed relative peak bounds the first snapshot and is
attained by a retained snapshot. -/
theorem relativePeak_is_max_of_window_witness :
    mRel30 ∈ [mRel30, mRel70] ∧
    mRel30.muscle_relative.getD 0 ≤ relativePeak [mRel30, mRel70] ∧
    [mRel30, mRel70] ≠ ([] : List Metrics) ∧
    ∃ m ∈ [mRel30, mRel70], relativePeak [mRel30, mRel70] = m.muscle_relative.getD 0 :=
  ⟨List.mem_cons_self mRel30 [mRel70],
   relativePeak_is_max_of_window.2.1 [mRel30, mRel70] mRel30
     (List.mem_cons_self mRel30 [mRel70]),
   List.cons_ne_nil mRel30 [mRel70],
   relativePeak_is_max_of_window.2.2 [mRel30, mRel70]
     (List.cons_ne_nil mRel30 [mRel70])⟩

lemma pushHistory_lastN (l : List Metrics) (x : Metrics) :
    pushHistory (l.drop (l.length - maxHistoryLength)) x =
      (l ++ [x]).drop ((l ++ [x]).length - maxHistoryLength) := by
  unfold pushHistory
  simp only [maxHistoryLength] at *
  rcases le_or_lt l.length 100 with hle | hlt
  · have h0 : l.length - 100 = 0 := by omega
    rw [h0, List.drop_zero]
  · have hA : (l.drop (l.length - 100)).length = 100 := by
      rw [List.length_drop]; omega
    have h1 : (l.drop (l.length - 100) ++ [x]).length - 100 = 1 := by
      rw [List.length_append, hA, List.length_singleton]
    have h2 : (l ++ [x]).length - 100 = (l.length - 100) + 1 := by
      rw [List.length_append, List.length_singleton]; omega
    rw [h1, h2]
    rw [List.drop_append_of_le_length (by omega : (l.length - 100) + 1 ≤ l.length)]
    rw [List.drop_append_of_le_length
      (by rw [hA]; omega : 1 ≤ (l.drop (l.length - 100)).length)]
    rw [List.drop_drop]

lemma foldl_pushHistory_lastN (ms : List Metrics) : ∀ l : List Metrics,
    ms.foldl pushHistory (l.drop (l.length - maxHistoryLength)) =
      (l ++ ms).drop ((l ++ ms).length - maxHistoryLength) := by
  induction ms with
  | nil => intro l; simp
  | cons x ms ih =>
    intro l
    rw [List.foldl_cons, pushHistory_lastN, ih (l ++ [x]), List.append_assoc,
      List.singleton_append]

lemma onMessage_history (c : ClientState) (m : Metrics) :
    (onMessage c m).history = pushHistory c.history m := by
  unfold onMessage
  cases h : m.hasMuscleRangeField <;> simp [h]

lemma foldl_onMessage_history (msgs : List Metrics) : ∀ c : ClientState,
    (msgs.foldl onMessage c).history = msgs.foldl pushHistory c.history := by
  induction msgs with
  | nil => intro c; rfl
  | cons m msgs ih =>
    intro c
    rw [List.foldl_cons, List.foldl_cons, ih (onMessage c m), onMessage_history]

/-- C2: starting from an empty history, once more than maxHistoryLength
(100) snapshots have arrived over the websocket, the retained history is
exactly the suffix of the arrival sequence of length 100: the 100 most
recent snapshots in arrival order, the oldest evicted first. -/
theorem history_keeps_last_100 (msgs : List Metrics) (c : ClientState)
    (hc : c.history = []) (hlen : maxHistoryLength < msgs.length) :
    (msgs.foldl onMessage c).history = msgs.drop (msgs.length - maxHistoryLength) ∧
    (msgs.foldl onMessage c).history.length = maxHistoryLength := by
  have h := foldl_pushHistory_lastN msgs []
  simp only [List.length_nil, Nat.zero_sub, List.drop_zero, List.nil_append] at h
  rw [foldl_onMessage_history, hc]
  refine ⟨h, ?_⟩
  rw [h, List.length_drop]
  simp only [maxHistoryLength] at *
  omega

/-- C2 witness: feeding 101 identical snapshots to a fresh client leaves a
history of length exactly 100. -/
theorem history_keeps_last_100_witness :
    c0.history = [] ∧
    maxHistoryLength < (List.replicate 101 m0).length ∧
    ((List.replicate 101 m0).foldl onMessage c0).history.length = maxHistoryLength :=
  ⟨rfl, by simp [maxHistoryLength], (history_keeps_last_100 (List.replicate 101 m0) c0
      rfl (by simp [maxHistoryLength])).2⟩
